import Mathlib

/-!
Verification of the knode binary decoder. The Go source (`knode.go`) is
shallowly embedded below: raw bytes are natural numbers, the mutable
`parser` struct becomes an explicit `ParserState` threaded through the
phase functions, and fallible reads return `Except ParseError`.
-/

namespace Knode

/-- Raw bytes are modelled as natural numbers. Go builds strings out of raw
byte slices; that is modelled by mapping each byte value to the character
with that code point. -/
def byteStr (bs : List Nat) : String :=
  String.mk (bs.map Char.ofNat)

/-- The magic number of a .knode file, as its list of byte values. -/
def MAGIC_NUMBER : List Nat :=
  "kronarknode".toList.map Char.toNat

/-- The latest version of the Kronark node format. -/
def LATEST_VERSION : Nat := 1

/-- SocketType value `OutgoingNamed` (Go iota 0). -/
def OutgoingNamed : Nat := 0

/-- SocketType value `IncomingNamed` (Go iota 1). -/
def IncomingNamed : Nat := 1

/-- SocketType value `IncomingNumber` (Go iota 2). -/
def IncomingNumber : Nat := 2

/-- SocketType value `IncomingSelect` (Go iota 3). -/
def IncomingSelect : Nat := 3

/-- SocketType value `IncomingSwitch` (Go iota 4). -/
def IncomingSwitch : Nat := 4

/-- SocketType value `IncomingText` (Go iota 5). -/
def IncomingText : Nat := 5

/-- Position represents a node's position, two signed 16-bit values in Go;
the packed 10-bit arithmetic never overflows 16 bits, so `Int` is exact. -/
structure Position where
  X : Int
  Y : Int
deriving DecidableEq

/-- Socket mirrors the Go `Socket` struct (the Go field `Type` is spelled
`type` here because `Type` is reserved in Lean). -/
structure Socket where
  type : Nat
  ValueType : Nat
  PortSlot : Nat
  Repetitive : Bool
  Connected : Bool
  ConnectedSocket : Nat
  ConnectedNode : Nat
  Value : String
deriving DecidableEq

/-- Instance mirrors the Go `Instance` struct (Go field `Type` is `type`). -/
structure Instance where
  Key : Nat
  type : Nat
  Name : String
  Position : Position
  Sockets : List Socket
deriving DecidableEq

/-- OutRoot mirrors the anonymous `OutputRoot` struct inside Go's `Node`. -/
structure OutRoot where
  Position : Position
  Connections : List (Nat × Nat)
deriving DecidableEq

/-- Node mirrors the Go `Node` struct, the decoded document. -/
structure Node where
  Version : Nat
  InputRootPosition : Position
  OutputRoot : OutRoot
  Nodes : List String
  Types : List String
  Instances : List Instance
deriving DecidableEq

/-- The message of a parse error. Go formats these as strings; the
constructors carry exactly the data interpolated into those strings:
`readError` is the "internal read error" from a failed `binary.Decode`,
`invalidMagic` carries the bytes actually read, `invalidVersion` the
version byte. -/
inductive PMessage where
  | readError : PMessage
  | invalidMagic : List Nat → PMessage
  | invalidVersion : Nat → PMessage
deriving DecidableEq

/-- ParseError mirrors the Go `ParseError` struct: phase label, message,
and the byte offset the cursor stood at. -/
structure ParseError where
  Context : String
  Message : PMessage
  Index : Nat
deriving DecidableEq

/-- ParserState mirrors the Go `parser` struct: the buffer, the cursor
offset `i`, and the current phase label `ctx`. The in-progress `Node` is
threaded through return values instead of being mutated in place. -/
structure ParserState where
  buf : List Nat
  i : Nat
  ctx : String
deriving DecidableEq

/-- Phase label used while checking the magic number. -/
def ctxMagic : String := "parsing magic"

/-- Phase label used while reading the version byte. -/
def ctxVersion : String := "reading version number"

/-- Phase label used while unpacking the two root positions. -/
def ctxRoots : String := "unpacking root positions"

/-- Phase label used while reading the connection count. -/
def ctxConnCount : String := "reading amount of connections"

/-- Phase label for the i-th output root connection. -/
def connCtx (i : Nat) : String :=
  "reading outgoing connection [" ++ (toString i ++ "]")

/-- Phase label used while reading the node table. -/
def ctxNodeCount : String := "reading amount of nodes"

/-- Phase label used while reading the type table. -/
def ctxTypeCount : String := "reading amount of types"

/-- Phase label used while reading the instance count. -/
def ctxInstCount : String := "reading amount of instances"

/-- Phase label for the ii-th instance. -/
def instCtx (ii : Nat) : String :=
  "parsing instance [" ++ (toString ii ++ "]")

/-- Phase label for the si-th socket of the ii-th instance. -/
def sockCtx (si ii : Nat) : String :=
  "parsing socket [" ++ (toString si ++ ("] in instance [" ++ (toString ii ++ "]")))

/-- Builds a ParseError from the current parser state, like Go's
`parser.error`: the current phase label and cursor offset are recorded. -/
def perror (s : ParserState) (m : PMessage) : ParseError :=
  { Context := s.ctx, Message := m, Index := s.i }

/-- The read primitive, Go's `parser.read` backed by `binary.Decode`:
reads `n` bytes at the cursor and advances, or fails without advancing
when fewer than `n` bytes remain. -/
def readBytes (s : ParserState) (n : Nat) : Except ParseError (List Nat × ParserState) :=
  if s.i + n ≤ s.buf.length then
    .ok ((s.buf.drop s.i).take n, { s with i := s.i + n })
  else
    .error (perror s PMessage.readError)

/-- Reads one byte (Go `p.read` of a `byte`). -/
def readByte (s : ParserState) : Except ParseError (Nat × ParserState) :=
  match readBytes s 1 with
  | .ok (bs, t) => .ok (bs.headD 0, t)
  | .error e => .error e

/-- Reads a big-endian unsigned 32-bit value (Go `p.read` of a `uint32`). -/
def readU32 (s : ParserState) : Except ParseError (Nat × ParserState) :=
  match readBytes s 4 with
  | .ok (bs, t) =>
    .ok (bs.getD 0 0 * 16777216 + bs.getD 1 0 * 65536 + bs.getD 2 0 * 256 + bs.getD 3 0, t)
  | .error e => .error e

/-- Unpacks the 5-byte root window into the two root positions, exactly
the bit arithmetic of Go's `parseRoots`. -/
def unpackRootPos (b0 b1 b2 b3 b4 : Nat) : Position × Position :=
  ({ X := ((((b0 <<< 2) ||| ((b1 >>> 6) &&& 3)) : Nat) : Int) - 500,
     Y := (((((b1 &&& 63) <<< 4) ||| ((b2 >>> 4) &&& 15)) : Nat) : Int) - 500 },
   { X := (((((b2 &&& 15) <<< 6) ||| ((b3 >>> 2) &&& 63)) : Nat) : Int) - 500,
     Y := (((((b3 &&& 3) <<< 8) ||| b4) : Nat) : Int) - 500 })

/-- The decoded fields of a 4-byte instance window. -/
structure SizeInfo where
  X : Int
  Y : Int
  nameLen : Nat
  sockCount : Nat
deriving DecidableEq

/-- Unpacks the 4-byte instance window, exactly the bit arithmetic of
Go's `parseInstances`. -/
def unpackSizeInfo (b0 b1 b2 b3 : Nat) : SizeInfo :=
  { X := ((((b0 <<< 2) ||| ((b1 >>> 6) &&& 3)) : Nat) : Int) - 500,
    Y := (((((b1 &&& 63) <<< 4) ||| ((b2 >>> 4) &&& 15)) : Nat) : Int) - 500,
    nameLen := ((b2 &&& 15) <<< 2) ||| ((b3 >>> 6) &&& 3),
    sockCount := b3 &&& 63 }

/-- Go's `parser.parseHeader`: checks the magic literal and the version
byte, returning the accepted version. -/
def parseHeader (s0 : ParserState) : Except ParseError (Nat × ParserState) :=
  match readBytes { s0 with ctx := ctxMagic } 11 with
  | .error e => .error e
  | .ok (magic, s1) =>
    if magic ≠ MAGIC_NUMBER then
      .error (perror s1 (PMessage.invalidMagic magic))
    else
      match readByte { s1 with ctx := ctxVersion } with
      | .error e => .error e
      | .ok (v, s3) =>
        if v > LATEST_VERSION then
          .error (perror s3 (PMessage.invalidVersion v))
        else
          .ok (v, s3)

/-- The connection loop of Go's `parseRoots`: reads `count` further
(node, socket) pairs, `idx` being the loop counter used in phase labels. -/
def parseConnections (s : ParserState) (count idx : Nat) (acc : List (Nat × Nat)) :
    Except ParseError (List (Nat × Nat) × ParserState) :=
  match count with
  | 0 => .ok (acc, s)
  | c + 1 =>
    match readBytes { s with ctx := connCtx idx } 2 with
    | .error e => .error e
    | .ok (bs, s2) =>
      parseConnections s2 c (idx + 1) (acc ++ [(bs.getD 0 0, bs.getD 1 0)])

/-- Go's `parser.parseRoots`: the 5-byte packed window, then the output
root connection list. -/
def parseRoots (s0 : ParserState) :
    Except ParseError ((Position × Position × List (Nat × Nat)) × ParserState) :=
  match readBytes { s0 with ctx := ctxRoots } 5 with
  | .error e => .error e
  | .ok (pos, s1) =>
    match readByte { s1 with ctx := ctxConnCount } with
    | .error e => .error e
    | .ok (connCount, s3) =>
      match parseConnections s3 connCount 0 [] with
      | .error e => .error e
      | .ok (conns, s4) =>
        .ok (((unpackRootPos (pos.getD 0 0) (pos.getD 1 0) (pos.getD 2 0)
                (pos.getD 3 0) (pos.getD 4 0)).1,
              (unpackRootPos (pos.getD 0 0) (pos.getD 1 0) (pos.getD 2 0)
                (pos.getD 3 0) (pos.getD 4 0)).2, conns), s4)

/-- One length-prefixed string table of Go's `parseNodesAndTypes`: reads
`count` entries, each a length byte followed by that many bytes. -/
def parseTable (s : ParserState) (count : Nat) (acc : List String) :
    Except ParseError (List String × ParserState) :=
  match count with
  | 0 => .ok (acc, s)
  | c + 1 =>
    match readByte s with
    | .error e => .error e
    | .ok (l, s1) =>
      match readBytes s1 l with
      | .error e => .error e
      | .ok (bs, s2) => parseTable s2 c (acc ++ [byteStr bs])

/-- Go's `parser.parseNodesAndTypes`: the node path table, then the type
name table. -/
def parseNodesAndTypes (s0 : ParserState) :
    Except ParseError ((List String × List String) × ParserState) :=
  match readByte { s0 with ctx := ctxNodeCount } with
  | .error e => .error e
  | .ok (nodeCount, s1) =>
    match parseTable s1 nodeCount [] with
    | .error e => .error e
    | .ok (nodes, s2) =>
      match readByte { s2 with ctx := ctxTypeCount } with
      | .error e => .error e
      | .ok (typeCount, s4) =>
        match parseTable s4 typeCount [] with
        | .error e => .error e
        | .ok (types, s5) => .ok ((nodes, types), s5)

/-- Go's `parser.parseSocket`: the flags byte, value type and port slot,
then the conditional tail depending on kind and the connected bit. -/
def parseSocket (s : ParserState) : Except ParseError (Socket × ParserState) :=
  match readByte s with
  | .error e => .error e
  | .ok (socketFlags, s1) =>
    match readByte s1 with
    | .error e => .error e
    | .ok (vt, s2) =>
      match readByte s2 with
      | .error e => .error e
      | .ok (ps, s3) =>
        if ((socketFlags >>> 3) &&& 7) ≠ OutgoingNamed then
          if (socketFlags &&& 2) != 0 then
            match readByte s3 with
            | .error e => .error e
            | .ok (cn, s4) =>
              match readByte s4 with
              | .error e => .error e
              | .ok (cs, s5) =>
                .ok ({ type := (socketFlags >>> 3) &&& 7, ValueType := vt, PortSlot := ps,
                       Repetitive := (socketFlags &&& 4) != 0,
                       Connected := (socketFlags &&& 2) != 0,
                       ConnectedSocket := cs, ConnectedNode := cn, Value := "" }, s5)
          else if ((socketFlags >>> 3) &&& 7) ≠ IncomingSwitch then
            match readU32 s3 with
            | .error e => .error e
            | .ok (valueLen, s4) =>
              match readBytes s4 valueLen with
              | .error e => .error e
              | .ok (value, s5) =>
                .ok ({ type := (socketFlags >>> 3) &&& 7, ValueType := vt, PortSlot := ps,
                       Repetitive := (socketFlags &&& 4) != 0,
                       Connected := (socketFlags &&& 2) != 0,
                       ConnectedSocket := 0, ConnectedNode := 0,
                       Value := byteStr value }, s5)
          else
            .ok ({ type := (socketFlags >>> 3) &&& 7, ValueType := vt, PortSlot := ps,
                   Repetitive := (socketFlags &&& 4) != 0,
                   Connected := (socketFlags &&& 2) != 0,
                   ConnectedSocket := 0, ConnectedNode := 0,
                   Value := if (socketFlags &&& 1) != 0 then "true" else "false" }, s3)
        else
          .ok ({ type := (socketFlags >>> 3) &&& 7, ValueType := vt, PortSlot := ps,
                 Repetitive := (socketFlags &&& 4) != 0,
                 Connected := (socketFlags &&& 2) != 0,
                 ConnectedSocket := 0, ConnectedNode := 0, Value := "" }, s3)

/-- The socket loop inside Go's `parseInstances`: reads `count` sockets,
`si` the socket counter and `ii` the instance counter of the labels. -/
def parseSockets (s : ParserState) (count si ii : Nat) (acc : List Socket) :
    Except ParseError (List Socket × ParserState) :=
  match count with
  | 0 => .ok (acc, s)
  | c + 1 =>
    match parseSocket { s with ctx := sockCtx si ii } with
    | .error e => .error e
    | .ok (sk, s2) => parseSockets s2 c (si + 1) ii (acc ++ [sk])

/-- The instance loop of Go's `parseInstances`: reads `count` instances,
`ii` the loop counter used in phase labels. -/
def parseInstLoop (s : ParserState) (count ii : Nat) (acc : List Instance) :
    Except ParseError (List Instance × ParserState) :=
  match count with
  | 0 => .ok (acc, s)
  | c + 1 =>
    match readByte { s with ctx := instCtx ii } with
    | .error e => .error e
    | .ok (key, s2) =>
      match readByte s2 with
      | .error e => .error e
      | .ok (ty, s3) =>
        match readBytes s3 4 with
        | .error e => .error e
        | .ok (sizeInfo, s4) =>
          let u := unpackSizeInfo (sizeInfo.getD 0 0) (sizeInfo.getD 1 0)
            (sizeInfo.getD 2 0) (sizeInfo.getD 3 0)
          match readBytes s4 u.nameLen with
          | .error e => .error e
          | .ok (nameBytes, s5) =>
            match parseSockets s5 u.sockCount 0 ii [] with
            | .error e => .error e
            | .ok (socks, s6) =>
              parseInstLoop s6 c (ii + 1)
                (acc ++ [{ Key := key, type := ty, Name := byteStr nameBytes,
                           Position := { X := u.X, Y := u.Y },
                           Sockets := socks }])

/-- Go's `parser.parseInstances`: the instance count, then the loop. -/
def parseInstances (s0 : ParserState) : Except ParseError (List Instance × ParserState) :=
  match readByte { s0 with ctx := ctxInstCount } with
  | .error e => .error e
  | .ok (instanceCount, s1) => parseInstLoop s1 instanceCount 0 []

/-- Go's `parser.parse`: the five phases in fixed order over one shared
cursor, assembling the document. -/
def parse (s0 : ParserState) : Except ParseError (Node × ParserState) :=
  match parseHeader s0 with
  | .error e => .error e
  | .ok (ver, s1) =>
    match parseRoots s1 with
    | .error e => .error e
    | .ok (roots, s2) =>
      match parseNodesAndTypes s2 with
      | .error e => .error e
      | .ok (tables, s3) =>
        match parseInstances s3 with
        | .error e => .error e
        | .ok (insts, s4) =>
          .ok ({ Version := ver, InputRootPosition := roots.1,
                 OutputRoot := { Position := roots.2.1, Connections := roots.2.2 },
                 Nodes := tables.1, Types := tables.2, Instances := insts }, s4)

/-- Go's `ParseFromSlice`: the public entry point; on success the node
and a nil error, on failure a nil node and the error, as in Go's
`(n *Node, err *ParseError)` return. -/
def ParseFromSlice (buf : List Nat) : Option Node × Option ParseError :=
  match parse { buf := buf, i := 0, ctx := "" } with
  | .ok (n, _) => (some n, none)
  | .error e => (none, some e)

/-! Helper lemmas about list indexing and the read primitives. -/

theorem drop_getElem? (l : List Nat) (i k : Nat) : (l.drop i)[k]? = l[i + k]? := by
  induction i generalizing l with
  | zero => simp
  | succ n ih =>
    cases l with
    | nil => simp
    | cons a t =>
      have h1 : (a :: t).drop (n + 1) = t.drop n := rfl
      have h2 : n + 1 + k = (n + k) + 1 := by omega
      rw [h1, ih t, h2, List.getElem?_cons_succ]

theorem window_getD (l : List Nat) (i n k : Nat) (hk : k < n) :
    ((l.drop i).take n).getD k 0 = l.getD (i + k) 0 := by
  rw [List.getD_eq_getElem?_getD, List.getD_eq_getElem?_getD,
    List.getElem?_take_of_lt hk, drop_getElem?]

theorem window_headD (l : List Nat) (i n : Nat) (hn : 0 < n) :
    ((l.drop i).take n).headD 0 = l.getD i 0 := by
  have h := window_getD l i n 0 hn
  rw [Nat.add_zero] at h
  rw [List.headD_eq_head?, List.head?_eq_getElem?, ← List.getD_eq_getElem?_getD]
  exact h

theorem readBytes_ok_inv {s : ParserState} {n : Nat} {bs : List Nat} {t : ParserState}
    (h : readBytes s n = .ok (bs, t)) :
    bs = (s.buf.drop s.i).take n ∧ t = { s with i := s.i + n } ∧ s.i + n ≤ s.buf.length := by
  unfold readBytes at h
  split at h
  · cases h
    exact ⟨rfl, rfl, by assumption⟩
  · cases h

theorem readBytes_error_inv {s : ParserState} {n : Nat} {e : ParseError}
    (h : readBytes s n = .error e) :
    e = perror s PMessage.readError ∧ s.buf.length < s.i + n := by
  unfold readBytes at h
  split at h
  · cases h
  · cases h
    exact ⟨rfl, by omega⟩

theorem readByte_ok_inv {s : ParserState} {v : Nat} {t : ParserState}
    (h : readByte s = .ok (v, t)) :
    v = s.buf.getD s.i 0 ∧ t = { s with i := s.i + 1 } ∧ s.i + 1 ≤ s.buf.length := by
  unfold readByte at h
  split at h
  case _ bs t' heq =>
    obtain ⟨hbs, ht, hle⟩ := readBytes_ok_inv heq
    cases h
    subst hbs
    exact ⟨window_headD s.buf s.i 1 (by omega), ht, hle⟩
  case _ e heq => cases h

theorem readByte_error_inv {s : ParserState} {e : ParseError}
    (h : readByte s = .error e) :
    e = perror s PMessage.readError ∧ s.buf.length < s.i + 1 := by
  unfold readByte at h
  split at h
  case _ => cases h
  case _ e' heq =>
    cases h
    exact readBytes_error_inv heq

theorem readU32_ok_inv {s : ParserState} {v : Nat} {t : ParserState}
    (h : readU32 s = .ok (v, t)) :
    v = s.buf.getD s.i 0 * 16777216 + s.buf.getD (s.i + 1) 0 * 65536 +
        s.buf.getD (s.i + 2) 0 * 256 + s.buf.getD (s.i + 3) 0 ∧
    t = { s with i := s.i + 4 } ∧ s.i + 4 ≤ s.buf.length := by
  unfold readU32 at h
  split at h
  case _ bs t' heq =>
    obtain ⟨hbs, ht, hle⟩ := readBytes_ok_inv heq
    cases h
    subst hbs
    refine ⟨?_, ht, hle⟩
    rw [window_getD s.buf s.i 4 0 (by omega), window_getD s.buf s.i 4 1 (by omega),
      window_getD s.buf s.i 4 2 (by omega), window_getD s.buf s.i 4 3 (by omega),
      Nat.add_zero]
  case _ e heq => cases h

theorem readU32_error_inv {s : ParserState} {e : ParseError}
    (h : readU32 s = .error e) :
    e = perror s PMessage.readError ∧ s.buf.length < s.i + 4 := by
  unfold readU32 at h
  split at h
  case _ => cases h
  case _ e' heq =>
    cases h
    exact readBytes_error_inv heq

theorem readBytes_pos (buf : List Nat) (i : Nat) (c : String) (n : Nat)
    (h : i + n ≤ buf.length) :
    readBytes ⟨buf, i, c⟩ n = .ok ((buf.drop i).take n, ⟨buf, i + n, c⟩) := by
  unfold readBytes
  rw [if_pos h]

theorem readBytes_neg (buf : List Nat) (i : Nat) (c : String) (n : Nat)
    (h : buf.length < i + n) :
    readBytes ⟨buf, i, c⟩ n = .error ⟨c, PMessage.readError, i⟩ := by
  unfold readBytes
  rw [if_neg (by exact Nat.not_le.mpr h)]
  rfl

theorem readByte_pos (buf : List Nat) (i : Nat) (c : String)
    (h : i + 1 ≤ buf.length) :
    readByte ⟨buf, i, c⟩ = .ok (buf.getD i 0, ⟨buf, i + 1, c⟩) := by
  unfold readByte
  simp only [readBytes_pos buf i c 1 h]
  rw [window_headD buf i 1 (by omega)]

theorem readByte_neg (buf : List Nat) (i : Nat) (c : String)
    (h : buf.length < i + 1) :
    readByte ⟨buf, i, c⟩ = .error ⟨c, PMessage.readError, i⟩ := by
  unfold readByte
  simp only [readBytes_neg buf i c 1 h]

theorem readU32_pos (buf : List Nat) (i : Nat) (c : String)
    (h : i + 4 ≤ buf.length) :
    readU32 ⟨buf, i, c⟩ =
      .ok (buf.getD i 0 * 16777216 + buf.getD (i + 1) 0 * 65536 +
           buf.getD (i + 2) 0 * 256 + buf.getD (i + 3) 0, ⟨buf, i + 4, c⟩) := by
  unfold readU32
  simp only [readBytes_pos buf i c 4 h]
  rw [window_getD buf i 4 0 (by omega), window_getD buf i 4 1 (by omega),
    window_getD buf i 4 2 (by omega), window_getD buf i 4 3 (by omega), Nat.add_zero]

/-! String helpers: the phase labels are nonempty. -/

theorem append_ne_empty (a b : String) (h : a.data ≠ []) : a ++ b ≠ "" := by
  intro hh
  apply h
  have h0 : ("" : String).data = [] := rfl
  have h2 := congrArg String.data hh
  rw [String.data_append, h0] at h2
  exact (List.append_eq_nil.mp h2).1

theorem connCtx_ne (i : Nat) : connCtx i ≠ "" :=
  append_ne_empty _ _ (by decide)

theorem instCtx_ne (i : Nat) : instCtx i ≠ "" :=
  append_ne_empty _ _ (by decide)

theorem sockCtx_ne (si ii : Nat) : sockCtx si ii ≠ "" :=
  append_ne_empty _ _ (by decide)

theorem ctxMagic_ne : ctxMagic ≠ "" := by decide

theorem ctxVersion_ne : ctxVersion ≠ "" := by decide

theorem ctxRoots_ne : ctxRoots ≠ "" := by decide

theorem ctxConnCount_ne : ctxConnCount ≠ "" := by decide

theorem ctxNodeCount_ne : ctxNodeCount ≠ "" := by decide

theorem ctxTypeCount_ne : ctxTypeCount ≠ "" := by decide

theorem ctxInstCount_ne : ctxInstCount ≠ "" := by decide

/-! Branch characterisations of the socket parser. -/

theorem parseSocket_outgoing (buf : List Nat) (i : Nat) (c : String)
    (h3 : i + 3 ≤ buf.length) (hk : ((buf.getD i 0 >>> 3) &&& 7) = OutgoingNamed) :
    parseSocket ⟨buf, i, c⟩ =
      .ok ({ type := OutgoingNamed, ValueType := buf.getD (i + 1) 0,
             PortSlot := buf.getD (i + 2) 0,
             Repetitive := (buf.getD i 0 &&& 4) != 0,
             Connected := (buf.getD i 0 &&& 2) != 0,
             ConnectedSocket := 0, ConnectedNode := 0, Value := "" },
           ⟨buf, i + 3, c⟩) := by
  unfold parseSocket
  simp only [readByte_pos buf i c (by omega),
    readByte_pos buf (i + 1) c (by omega),
    show i + 1 + 1 = i + 2 from rfl,
    readByte_pos buf (i + 2) c (by omega),
    show i + 2 + 1 = i + 3 from rfl]
  rw [if_neg (fun hne => hne hk), hk]

theorem parseSocket_conn (buf : List Nat) (i : Nat) (c : String)
    (h5 : i + 5 ≤ buf.length)
    (hk : ((buf.getD i 0 >>> 3) &&& 7) ≠ OutgoingNamed)
    (hc : ((buf.getD i 0 &&& 2) != 0) = true) :
    parseSocket ⟨buf, i, c⟩ =
      .ok ({ type := (buf.getD i 0 >>> 3) &&& 7, ValueType := buf.getD (i + 1) 0,
             PortSlot := buf.getD (i + 2) 0,
             Repetitive := (buf.getD i 0 &&& 4) != 0,
             Connected := (buf.getD i 0 &&& 2) != 0,
             ConnectedSocket := buf.getD (i + 4) 0,
             ConnectedNode := buf.getD (i + 3) 0, Value := "" },
           ⟨buf, i + 5, c⟩) := by
  unfold parseSocket
  simp only [readByte_pos buf i c (by omega),
    readByte_pos buf (i + 1) c (by omega),
    show i + 1 + 1 = i + 2 from rfl,
    readByte_pos buf (i + 2) c (by omega),
    show i + 2 + 1 = i + 3 from rfl,
    readByte_pos buf (i + 3) c (by omega),
    show i + 3 + 1 = i + 4 from rfl,
    readByte_pos buf (i + 4) c (by omega),
    show i + 4 + 1 = i + 5 from rfl]
  rw [if_pos hk, if_pos hc]

theorem parseSocket_switch (buf : List Nat) (i : Nat) (c : String)
    (h3 : i + 3 ≤ buf.length)
    (hk : ((buf.getD i 0 >>> 3) &&& 7) = IncomingSwitch)
    (hc : (buf.getD i 0 &&& 2) = 0) :
    parseSocket ⟨buf, i, c⟩ =
      .ok ({ type := IncomingSwitch, ValueType := buf.getD (i + 1) 0,
             PortSlot := buf.getD (i + 2) 0,
             Repetitive := (buf.getD i 0 &&& 4) != 0,
             Connected := false, ConnectedSocket := 0, ConnectedNode := 0,
             Value := if (buf.getD i 0 &&& 1) != 0 then "true" else "false" },
           ⟨buf, i + 3, c⟩) := by
  unfold parseSocket
  simp only [readByte_pos buf i c (by omega),
    readByte_pos buf (i + 1) c (by omega),
    show i + 1 + 1 = i + 2 from rfl,
    readByte_pos buf (i + 2) c (by omega),
    show i + 2 + 1 = i + 3 from rfl]
  rw [if_pos (show ((buf.getD i 0 >>> 3) &&& 7) ≠ OutgoingNamed by rw [hk]; decide),
    if_neg (show ¬(((buf.getD i 0 &&& 2) != 0) = true) by rw [hc]; decide),
    if_neg (fun hne => hne hk), hk, hc]
  rfl

theorem parseSocket_flags {s : ParserState} {sk : Socket} {s' : ParserState}
    (h : parseSocket s = .ok (sk, s')) :
    sk.type = ((s.buf.getD s.i 0 >>> 3) &&& 7) ∧
    sk.Connected = ((s.buf.getD s.i 0 &&& 2) != 0) ∧
    sk.Repetitive = ((s.buf.getD s.i 0 &&& 4) != 0) ∧
    (sk.type = IncomingSwitch → sk.Connected = false →
      sk.Value = if (s.buf.getD s.i 0 &&& 1) != 0 then "true" else "false") := by
  unfold parseSocket at h
  split at h
  next e heq => exact Except.noConfusion h
  next flags s1 heq1 =>
    obtain ⟨hf, hs1, hle1⟩ := readByte_ok_inv heq1
    subst hf
    split at h
    next e heq => exact Except.noConfusion h
    next vt s2 heq2 =>
      split at h
      next e heq => exact Except.noConfusion h
      next ps s3 heq3 =>
        split at h
        · split at h
          · split at h
            next e heq => exact Except.noConfusion h
            next cn s4 heq4 =>
              split at h
              next e heq => exact Except.noConfusion h
              next cs s5 heq5 =>
                cases h
                refine ⟨rfl, rfl, rfl, ?_⟩
                intro ht hcf
                exact absurd hcf (by simp_all)
          · split at h
            · split at h
              next e heq => exact Except.noConfusion h
              next valueLen s4 heq4 =>
                split at h
                next e heq => exact Except.noConfusion h
                next value s5 heq5 =>
                  cases h
                  refine ⟨rfl, rfl, rfl, ?_⟩
                  intro ht hcf
                  exact absurd ht (by simp_all)
            · cases h
              exact ⟨by simp_all, rfl, rfl, fun ht hcf => rfl⟩
        · cases h
          refine ⟨rfl, rfl, rfl, ?_⟩
          intro ht hcf
          exact absurd ht (by simp_all [IncomingSwitch, OutgoingNamed])

/-! Field-level inversion lemmas, convenient for the cursor invariants. -/

theorem readBytes_ok_fields {s : ParserState} {n : Nat} {bs : List Nat} {t : ParserState}
    (h : readBytes s n = .ok (bs, t)) :
    t.i = s.i + n ∧ t.buf = s.buf ∧ t.ctx = s.ctx ∧ s.i + n ≤ s.buf.length := by
  obtain ⟨hbs, ht, hle⟩ := readBytes_ok_inv h
  subst ht
  exact ⟨rfl, rfl, rfl, hle⟩

theorem readBytes_error_fields {s : ParserState} {n : Nat} {e : ParseError}
    (h : readBytes s n = .error e) :
    e.Index = s.i ∧ e.Context = s.ctx ∧ s.buf.length < s.i + n := by
  obtain ⟨he, hlt⟩ := readBytes_error_inv h
  subst he
  exact ⟨rfl, rfl, hlt⟩

theorem readByte_ok_fields {s : ParserState} {v : Nat} {t : ParserState}
    (h : readByte s = .ok (v, t)) :
    t.i = s.i + 1 ∧ t.buf = s.buf ∧ t.ctx = s.ctx ∧ s.i + 1 ≤ s.buf.length := by
  obtain ⟨hv, ht, hle⟩ := readByte_ok_inv h
  subst ht
  exact ⟨rfl, rfl, rfl, hle⟩

theorem readByte_error_fields {s : ParserState} {e : ParseError}
    (h : readByte s = .error e) :
    e.Index = s.i ∧ e.Context = s.ctx ∧ s.buf.length < s.i + 1 := by
  obtain ⟨he, hlt⟩ := readByte_error_inv h
  subst he
  exact ⟨rfl, rfl, hlt⟩

theorem readU32_ok_fields {s : ParserState} {v : Nat} {t : ParserState}
    (h : readU32 s = .ok (v, t)) :
    t.i = s.i + 4 ∧ t.buf = s.buf ∧ t.ctx = s.ctx ∧ s.i + 4 ≤ s.buf.length := by
  obtain ⟨hv, ht, hle⟩ := readU32_ok_inv h
  subst ht
  exact ⟨rfl, rfl, rfl, hle⟩

theorem readU32_error_fields {s : ParserState} {e : ParseError}
    (h : readU32 s = .error e) :
    e.Index = s.i ∧ e.Context = s.ctx ∧ s.buf.length < s.i + 4 := by
  obtain ⟨he, hlt⟩ := readU32_error_inv h
  subst he
  exact ⟨rfl, rfl, hlt⟩

/-! Cursor and phase-label invariants of each parsing phase. -/

theorem parseHeader_inv (s : ParserState) (h : s.i ≤ s.buf.length) :
    (∀ v s', parseHeader s = .ok (v, s') →
      s.i ≤ s'.i ∧ s'.i ≤ s.buf.length ∧ s'.buf = s.buf) ∧
    (∀ e, parseHeader s = .error e →
      e.Index ≤ s.buf.length ∧ e.Context ≠ "") := by
  constructor
  · intro v s' hok
    unfold parseHeader at hok
    split at hok
    next e heq => exact Except.noConfusion hok
    next magic s1 heq1 =>
      obtain ⟨hi1, hb1, hc1, hle1⟩ := readBytes_ok_fields heq1
      dsimp only at hi1 hb1 hc1 hle1
      have hlen1 : s1.buf.length = s.buf.length := by rw [hb1]
      split at hok
      · exact Except.noConfusion hok
      · split at hok
        next e heq => exact Except.noConfusion hok
        next v2 s3 heq3 =>
          obtain ⟨hi3, hb3, hc3, hle3⟩ := readByte_ok_fields heq3
          dsimp only at hi3 hb3 hc3 hle3
          split at hok
          · exact Except.noConfusion hok
          · cases hok
            refine ⟨by omega, by omega, by rw [hb3, hb1]⟩
  · intro e herr
    unfold parseHeader at herr
    split at herr
    next e2 heq =>
      obtain ⟨hi, hc, hlt⟩ := readBytes_error_fields heq
      dsimp only at hi hc hlt
      cases herr
      exact ⟨by omega, by rw [hc]; exact ctxMagic_ne⟩
    next magic s1 heq1 =>
      obtain ⟨hi1, hb1, hc1, hle1⟩ := readBytes_ok_fields heq1
      dsimp only at hi1 hb1 hc1 hle1
      have hlen1 : s1.buf.length = s.buf.length := by rw [hb1]
      split at herr
      · cases herr
        exact ⟨by rw [perror]; dsimp only; omega,
          by rw [perror]; dsimp only; rw [hc1]; exact ctxMagic_ne⟩
      · split at herr
        next e2 heq =>
          obtain ⟨hi, hc, hlt⟩ := readByte_error_fields heq
          dsimp only at hi hc hlt
          cases herr
          exact ⟨by omega, by rw [hc]; exact ctxVersion_ne⟩
        next v2 s3 heq3 =>
          obtain ⟨hi3, hb3, hc3, hle3⟩ := readByte_ok_fields heq3
          dsimp only at hi3 hb3 hc3 hle3
          split at herr
          · cases herr
            exact ⟨by rw [perror]; dsimp only; omega,
              by rw [perror]; dsimp only; rw [hc3]; exact ctxVersion_ne⟩
          · exact Except.noConfusion herr

theorem parseConnections_inv (count : Nat) :
    ∀ (s : ParserState) (idx : Nat) (acc : List (Nat × Nat)), s.i ≤ s.buf.length →
    (∀ r s', parseConnections s count idx acc = .ok (r, s') →
      s.i ≤ s'.i ∧ s'.i ≤ s.buf.length ∧ s'.buf = s.buf) ∧
    (∀ e, parseConnections s count idx acc = .error e →
      e.Index ≤ s.buf.length ∧ e.Context ≠ "") := by
  induction count with
  | zero =>
    intro s idx acc h
    constructor
    · intro r s' hok
      unfold parseConnections at hok
      cases hok
      exact ⟨le_refl _, h, rfl⟩
    · intro e herr
      unfold parseConnections at herr
      exact Except.noConfusion herr
  | succ c ih =>
    intro s idx acc h
    constructor
    · intro r s' hok
      unfold parseConnections at hok
      split at hok
      next e heq => exact Except.noConfusion hok
      next bs s2 heq =>
        obtain ⟨hi2, hb2, hc2, hle2⟩ := readBytes_ok_fields heq
        dsimp only at hi2 hb2 hc2 hle2
        have hlen2 : s2.buf.length = s.buf.length := by rw [hb2]
        obtain ⟨ihok, -⟩ := ih s2 (idx + 1) (acc ++ [(bs.getD 0 0, bs.getD 1 0)]) (by omega)
        obtain ⟨ha, hb, hc⟩ := ihok r s' hok
        exact ⟨by omega, by omega, by rw [hc, hb2]⟩
    · intro e herr
      unfold parseConnections at herr
      split at herr
      next e2 heq =>
        obtain ⟨hi, hc, hlt⟩ := readBytes_error_fields heq
        dsimp only at hi hc hlt
        cases herr
        exact ⟨by omega, by rw [hc]; exact connCtx_ne idx⟩
      next bs s2 heq =>
        obtain ⟨hi2, hb2, hc2, hle2⟩ := readBytes_ok_fields heq
        dsimp only at hi2 hb2 hc2 hle2
        have hlen2 : s2.buf.length = s.buf.length := by rw [hb2]
        obtain ⟨-, iherr⟩ := ih s2 (idx + 1) (acc ++ [(bs.getD 0 0, bs.getD 1 0)]) (by omega)
        obtain ⟨ha, hb⟩ := iherr e herr
        exact ⟨by omega, hb⟩

theorem parseRoots_inv (s : ParserState) (h : s.i ≤ s.buf.length) :
    (∀ r s', parseRoots s = .ok (r, s') →
      s.i ≤ s'.i ∧ s'.i ≤ s.buf.length ∧ s'.buf = s.buf) ∧
    (∀ e, parseRoots s = .error e →
      e.Index ≤ s.buf.length ∧ e.Context ≠ "") := by
  constructor
  · intro r s' hok
    unfold parseRoots at hok
    split at hok
    next e heq => exact Except.noConfusion hok
    next pos s1 heq1 =>
      obtain ⟨hi1, hb1, hc1, hle1⟩ := readBytes_ok_fields heq1
      dsimp only at hi1 hb1 hc1 hle1
      have hlen1 : s1.buf.length = s.buf.length := by rw [hb1]
      split at hok
      next e heq => exact Except.noConfusion hok
      next connCount s3 heq3 =>
        obtain ⟨hi3, hb3, hc3, hle3⟩ := readByte_ok_fields heq3
        dsimp only at hi3 hb3 hc3 hle3
        have hlen3 : s3.buf.length = s1.buf.length := by rw [hb3]
        split at hok
        next e heq => exact Except.noConfusion hok
        next conns s4 heq4 =>
          obtain ⟨ihok, -⟩ := parseConnections_inv connCount s3 0 [] (by omega)
          obtain ⟨ha, hb, hc⟩ := ihok conns s4 heq4
          cases hok
          exact ⟨by omega, by omega, by rw [hc, hb3, hb1]⟩
  · intro e herr
    unfold parseRoots at herr
    split at herr
    next e2 heq =>
      obtain ⟨hi, hc, hlt⟩ := readBytes_error_fields heq
      dsimp only at hi hc hlt
      cases herr
      exact ⟨by omega, by rw [hc]; exact ctxRoots_ne⟩
    next pos s1 heq1 =>
      obtain ⟨hi1, hb1, hc1, hle1⟩ := readBytes_ok_fields heq1
      dsimp only at hi1 hb1 hc1 hle1
      have hlen1 : s1.buf.length = s.buf.length := by rw [hb1]
      split at herr
      next e2 heq =>
        obtain ⟨hi, hc, hlt⟩ := readByte_error_fields heq
        dsimp only at hi hc hlt
        cases herr
        exact ⟨by omega, by rw [hc]; exact ctxConnCount_ne⟩
      next connCount s3 heq3 =>
        obtain ⟨hi3, hb3, hc3, hle3⟩ := readByte_ok_fields heq3
        dsimp only at hi3 hb3 hc3 hle3
        have hlen3 : s3.buf.length = s1.buf.length := by rw [hb3]
        split at herr
        next e2 heq4 =>
          obtain ⟨-, iherr⟩ := parseConnections_inv connCount s3 0 [] (by omega)
          obtain ⟨ha, hb⟩ := iherr e2 heq4
          cases herr
          exact ⟨by omega, hb⟩
        next conns s4 heq4 => exact Except.noConfusion herr

theorem parseTable_inv (count : Nat) :
    ∀ (s : ParserState) (acc : List String), s.i ≤ s.buf.length →
    (∀ r s', parseTable s count acc = .ok (r, s') →
      s.i ≤ s'.i ∧ s'.i ≤ s.buf.length ∧ s'.buf = s.buf) ∧
    (∀ e, parseTable s count acc = .error e →
      e.Index ≤ s.buf.length ∧ e.Context = s.ctx) := by
  induction count with
  | zero =>
    intro s acc h
    constructor
    · intro r s' hok
      unfold parseTable at hok
      cases hok
      exact ⟨le_refl _, h, rfl⟩
    · intro e herr
      unfold parseTable at herr
      exact Except.noConfusion herr
  | succ c ih =>
    intro s acc h
    constructor
    · intro r s' hok
      unfold parseTable at hok
      split at hok
      next e heq => exact Except.noConfusion hok
      next l s1 heq1 =>
        obtain ⟨hi1, hb1, hc1, hle1⟩ := readByte_ok_fields heq1
        have hlen1 : s1.buf.length = s.buf.length := by rw [hb1]
        split at hok
        next e heq => exact Except.noConfusion hok
        next bs s2 heq2 =>
          obtain ⟨hi2, hb2, hc2, hle2⟩ := readBytes_ok_fields heq2
          have hlen2 : s2.buf.length = s1.buf.length := by rw [hb2]
          obtain ⟨ihok, -⟩ := ih s2 (acc ++ [byteStr bs]) (by omega)
          obtain ⟨ha, hb, hc⟩ := ihok r s' hok
          exact ⟨by omega, by omega, by rw [hc, hb2, hb1]⟩
    · intro e herr
      unfold parseTable at herr
      split at herr
      next e2 heq =>
        obtain ⟨hi, hc, hlt⟩ := readByte_error_fields heq
        cases herr
        exact ⟨by omega, hc⟩
      next l s1 heq1 =>
        obtain ⟨hi1, hb1, hc1, hle1⟩ := readByte_ok_fields heq1
        have hlen1 : s1.buf.length = s.buf.length := by rw [hb1]
        split at herr
        next e2 heq =>
          obtain ⟨hi, hc, hlt⟩ := readBytes_error_fields heq
          cases herr
          exact ⟨by omega, by rw [hc, hc1]⟩
        next bs s2 heq2 =>
          obtain ⟨hi2, hb2, hc2, hle2⟩ := readBytes_ok_fields heq2
          have hlen2 : s2.buf.length = s1.buf.length := by rw [hb2]
          obtain ⟨-, iherr⟩ := ih s2 (acc ++ [byteStr bs]) (by omega)
          obtain ⟨ha, hb⟩ := iherr e herr
          exact ⟨by omega, by rw [hb, hc2, hc1]⟩

theorem parseNodesAndTypes_inv (s : ParserState) (h : s.i ≤ s.buf.length) :
    (∀ r s', parseNodesAndTypes s = .ok (r, s') →
      s.i ≤ s'.i ∧ s'.i ≤ s.buf.length ∧ s'.buf = s.buf) ∧
    (∀ e, parseNodesAndTypes s = .error e →
      e.Index ≤ s.buf.length ∧ e.Context ≠ "") := by
  constructor
  · intro r s' hok
    unfold parseNodesAndTypes at hok
    split at hok
    next e heq => exact Except.noConfusion hok
    next nodeCount s1 heq1 =>
      obtain ⟨hi1, hb1, hc1, hle1⟩ := readByte_ok_fields heq1
      dsimp only at hi1 hb1 hc1 hle1
      have hlen1 : s1.buf.length = s.buf.length := by rw [hb1]
      split at hok
      next e heq => exact Except.noConfusion hok
      next nodes s2 heq2 =>
        obtain ⟨tok, -⟩ := parseTable_inv nodeCount s1 [] (by omega)
        obtain ⟨ha2, hb2, hc2⟩ := tok nodes s2 heq2
        have hlen2 : s2.buf.length = s1.buf.length := by rw [hc2]
        split at hok
        next e heq => exact Except.noConfusion hok
        next typeCount s4 heq4 =>
          obtain ⟨hi4, hb4, hc4, hle4⟩ := readByte_ok_fields heq4
          dsimp only at hi4 hb4 hc4 hle4
          have hlen4 : s4.buf.length = s2.buf.length := by rw [hb4]
          split at hok
          next e heq => exact Except.noConfusion hok
          next types s5 heq5 =>
            obtain ⟨tok2, -⟩ := parseTable_inv typeCount s4 [] (by omega)
            obtain ⟨ha5, hb5, hc5⟩ := tok2 types s5 heq5
            cases hok
            exact ⟨by omega, by omega, by rw [hc5, hb4, hc2, hb1]⟩
  · intro e herr
    unfold parseNodesAndTypes at herr
    split at herr
    next e2 heq =>
      obtain ⟨hi, hc, hlt⟩ := readByte_error_fields heq
      dsimp only at hi hc hlt
      cases herr
      exact ⟨by omega, by rw [hc]; exact ctxNodeCount_ne⟩
    next nodeCount s1 heq1 =>
      obtain ⟨hi1, hb1, hc1, hle1⟩ := readByte_ok_fields heq1
      dsimp only at hi1 hb1 hc1 hle1
      have hlen1 : s1.buf.length = s.buf.length := by rw [hb1]
      split at herr
      next e2 heq2 =>
        obtain ⟨-, terr⟩ := parseTable_inv nodeCount s1 [] (by omega)
        obtain ⟨ha2, hb2⟩ := terr e2 heq2
        cases herr
        exact ⟨by omega, by rw [hb2, hc1]; exact ctxNodeCount_ne⟩
      next nodes s2 heq2 =>
        obtain ⟨tok, -⟩ := parseTable_inv nodeCount s1 [] (by omega)
        obtain ⟨ha2, hb2, hc2⟩ := tok nodes s2 heq2
        have hlen2 : s2.buf.length = s1.buf.length := by rw [hc2]
        split at herr
        next e2 heq =>
          obtain ⟨hi, hc, hlt⟩ := readByte_error_fields heq
          dsimp only at hi hc hlt
          cases herr
          exact ⟨by omega, by rw [hc]; exact ctxTypeCount_ne⟩
        next typeCount s4 heq4 =>
          obtain ⟨hi4, hb4, hc4, hle4⟩ := readByte_ok_fields heq4
          dsimp only at hi4 hb4 hc4 hle4
          have hlen4 : s4.buf.length = s2.buf.length := by rw [hb4]
          split at herr
          next e2 heq5 =>
            obtain ⟨-, terr2⟩ := parseTable_inv typeCount s4 [] (by omega)
            obtain ⟨ha5, hb5⟩ := terr2 e2 heq5
            cases herr
            exact ⟨by omega, by rw [hb5, hc4]; exact ctxTypeCount_ne⟩
          next types s5 heq5 => exact Except.noConfusion herr

theorem parseSocket_inv (s : ParserState) (h : s.i ≤ s.buf.length) :
    (∀ sk s', parseSocket s = .ok (sk, s') →
      s.i ≤ s'.i ∧ s'.i ≤ s.buf.length ∧ s'.buf = s.buf) ∧
    (∀ e, parseSocket s = .error e →
      e.Index ≤ s.buf.length ∧ e.Context = s.ctx) := by
  constructor
  · intro sk s' hok
    unfold parseSocket at hok
    split at hok
    next e heq => exact Except.noConfusion hok
    next flags s1 heq1 =>
      obtain ⟨hi1, hb1, hc1, hle1⟩ := readByte_ok_fields heq1
      have hlen1 : s1.buf.length = s.buf.length := by rw [hb1]
      split at hok
      next e heq => exact Except.noConfusion hok
      next vt s2 heq2 =>
        obtain ⟨hi2, hb2, hc2, hle2⟩ := readByte_ok_fields heq2
        have hlen2 : s2.buf.length = s1.buf.length := by rw [hb2]
        split at hok
        next e heq => exact Except.noConfusion hok
        next ps s3 heq3 =>
          obtain ⟨hi3, hb3, hc3, hle3⟩ := readByte_ok_fields heq3
          have hlen3 : s3.buf.length = s2.buf.length := by rw [hb3]
          split at hok
          · split at hok
            · split at hok
              next e heq => exact Except.noConfusion hok
              next cn s4 heq4 =>
                obtain ⟨hi4, hb4, hc4, hle4⟩ := readByte_ok_fields heq4
                have hlen4 : s4.buf.length = s3.buf.length := by rw [hb4]
                split at hok
                next e heq => exact Except.noConfusion hok
                next cs s5 heq5 =>
                  obtain ⟨hi5, hb5, hc5, hle5⟩ := readByte_ok_fields heq5
                  cases hok
                  exact ⟨by omega, by omega, by rw [hb5, hb4, hb3, hb2, hb1]⟩
            · split at hok
              · split at hok
                next e heq => exact Except.noConfusion hok
                next valueLen s4 heq4 =>
                  obtain ⟨hi4, hb4, hc4, hle4⟩ := readU32_ok_fields heq4
                  have hlen4 : s4.buf.length = s3.buf.length := by rw [hb4]
                  split at hok
                  next e heq => exact Except.noConfusion hok
                  next value s5 heq5 =>
                    obtain ⟨hi5, hb5, hc5, hle5⟩ := readBytes_ok_fields heq5
                    cases hok
                    exact ⟨by omega, by omega, by rw [hb5, hb4, hb3, hb2, hb1]⟩
              · cases hok
                exact ⟨by omega, by omega, by rw [hb3, hb2, hb1]⟩
          · cases hok
            exact ⟨by omega, by omega, by rw [hb3, hb2, hb1]⟩
  · intro e herr
    unfold parseSocket at herr
    split at herr
    next e2 heq =>
      obtain ⟨hi, hc, hlt⟩ := readByte_error_fields heq
      cases herr
      exact ⟨by omega, hc⟩
    next flags s1 heq1 =>
      obtain ⟨hi1, hb1, hc1, hle1⟩ := readByte_ok_fields heq1
      have hlen1 : s1.buf.length = s.buf.length := by rw [hb1]
      split at herr
      next e2 heq =>
        obtain ⟨hi, hc, hlt⟩ := readByte_error_fields heq
        cases herr
        exact ⟨by omega, by rw [hc, hc1]⟩
      next vt s2 heq2 =>
        obtain ⟨hi2, hb2, hc2, hle2⟩ := readByte_ok_fields heq2
        have hlen2 : s2.buf.length = s1.buf.length := by rw [hb2]
        split at herr
        next e2 heq =>
          obtain ⟨hi, hc, hlt⟩ := readByte_error_fields heq
          cases herr
          exact ⟨by omega, by rw [hc, hc2, hc1]⟩
        next ps s3 heq3 =>
          obtain ⟨hi3, hb3, hc3, hle3⟩ := readByte_ok_fields heq3
          have hlen3 : s3.buf.length = s2.buf.length := by rw [hb3]
          split at herr
          · split at herr
            · split at herr
              next e2 heq =>
                obtain ⟨hi, hc, hlt⟩ := readByte_error_fields heq
                cases herr
                exact ⟨by omega, by rw [hc, hc3, hc2, hc1]⟩
              next cn s4 heq4 =>
                obtain ⟨hi4, hb4, hc4, hle4⟩ := readByte_ok_fields heq4
                have hlen4 : s4.buf.length = s3.buf.length := by rw [hb4]
                split at herr
                next e2 heq =>
                  obtain ⟨hi, hc, hlt⟩ := readByte_error_fields heq
                  cases herr
                  exact ⟨by omega, by rw [hc, hc4, hc3, hc2, hc1]⟩
                next cs s5 heq5 => exact Except.noConfusion herr
            · split at herr
              · split at herr
                next e2 heq =>
                  obtain ⟨hi, hc, hlt⟩ := readU32_error_fields heq
                  cases herr
                  exact ⟨by omega, by rw [hc, hc3, hc2, hc1]⟩
                next valueLen s4 heq4 =>
                  obtain ⟨hi4, hb4, hc4, hle4⟩ := readU32_ok_fields heq4
                  have hlen4 : s4.buf.length = s3.buf.length := by rw [hb4]
                  split at herr
                  next e2 heq =>
                    obtain ⟨hi, hc, hlt⟩ := readBytes_error_fields heq
                    cases herr
                    exact ⟨by omega, by rw [hc, hc4, hc3, hc2, hc1]⟩
                  next value s5 heq5 => exact Except.noConfusion herr
              · exact Except.noConfusion herr
          · exact Except.noConfusion herr

theorem parseSockets_inv (count : Nat) :
    ∀ (s : ParserState) (si ii : Nat) (acc : List Socket), s.i ≤ s.buf.length →
    (∀ r s', parseSockets s count si ii acc = .ok (r, s') →
      s.i ≤ s'.i ∧ s'.i ≤ s.buf.length ∧ s'.buf = s.buf) ∧
    (∀ e, parseSockets s count si ii acc = .error e →
      e.Index ≤ s.buf.length ∧ e.Context ≠ "") := by
  induction count with
  | zero =>
    intro s si ii acc h
    constructor
    · intro r s' hok
      unfold parseSockets at hok
      cases hok
      exact ⟨le_refl _, h, rfl⟩
    · intro e herr
      unfold parseSockets at herr
      exact Except.noConfusion herr
  | succ c ih =>
    intro s si ii acc h
    constructor
    · intro r s' hok
      unfold parseSockets at hok
      split at hok
      next e heq => exact Except.noConfusion hok
      next sk s2 heq =>
        obtain ⟨sokk, -⟩ := parseSocket_inv { s with ctx := sockCtx si ii } (by exact h)
        obtain ⟨ha, hb, hc⟩ := sokk sk s2 heq
        dsimp only at ha hb hc
        have hlen2 : s2.buf.length = s.buf.length := by rw [hc]
        obtain ⟨ihok, -⟩ := ih s2 (si + 1) ii (acc ++ [sk]) (by omega)
        obtain ⟨ha2, hb2, hc2⟩ := ihok r s' hok
        exact ⟨by omega, by omega, by rw [hc2, hc]⟩
    · intro e herr
      unfold parseSockets at herr
      split at herr
      next e2 heq =>
        obtain ⟨-, sokerr⟩ := parseSocket_inv { s with ctx := sockCtx si ii } (by exact h)
        obtain ⟨ha, hb⟩ := sokerr e2 heq
        dsimp only at ha hb
        cases herr
        exact ⟨by omega, by rw [hb]; exact sockCtx_ne si ii⟩
      next sk s2 heq =>
        obtain ⟨sokk, -⟩ := parseSocket_inv { s with ctx := sockCtx si ii } (by exact h)
        obtain ⟨ha, hb, hc⟩ := sokk sk s2 heq
        dsimp only at ha hb hc
        have hlen2 : s2.buf.length = s.buf.length := by rw [hc]
        obtain ⟨-, iherr⟩ := ih s2 (si + 1) ii (acc ++ [sk]) (by omega)
        obtain ⟨ha2, hb2⟩ := iherr e herr
        exact ⟨by omega, hb2⟩

theorem parseInstLoop_inv (count : Nat) :
    ∀ (s : ParserState) (ii : Nat) (acc : List Instance), s.i ≤ s.buf.length →
    (∀ r s', parseInstLoop s count ii acc = .ok (r, s') →
      s.i ≤ s'.i ∧ s'.i ≤ s.buf.length ∧ s'.buf = s.buf) ∧
    (∀ e, parseInstLoop s count ii acc = .error e →
      e.Index ≤ s.buf.length ∧ e.Context ≠ "") := by
  induction count with
  | zero =>
    intro s ii acc h
    constructor
    · intro r s' hok
      unfold parseInstLoop at hok
      cases hok
      exact ⟨le_refl _, h, rfl⟩
    · intro e herr
      unfold parseInstLoop at herr
      exact Except.noConfusion herr
  | succ c ih =>
    intro s ii acc h
    constructor
    · intro r s' hok
      unfold parseInstLoop at hok
      split at hok
      next e heq => exact Except.noConfusion hok
      next key s2 heq1 =>
        obtain ⟨hi1, hb1, hc1, hle1⟩ := readByte_ok_fields heq1
        dsimp only at hi1 hb1 hc1 hle1
        have hlen1 : s2.buf.length = s.buf.length := by rw [hb1]
        split at hok
        next e heq => exact Except.noConfusion hok
        next ty s3 heq2 =>
          obtain ⟨hi2, hb2, hc2, hle2⟩ := readByte_ok_fields heq2
          have hlen2 : s3.buf.length = s2.buf.length := by rw [hb2]
          split at hok
          next e heq => exact Except.noConfusion hok
          next sizeInfo s4 heq3 =>
            obtain ⟨hi3, hb3, hc3, hle3⟩ := readBytes_ok_fields heq3
            have hlen3 : s4.buf.length = s3.buf.length := by rw [hb3]
            dsimp only at hok
            split at hok
            next e heq => exact Except.noConfusion hok
            next nameBytes s5 heq4 =>
              obtain ⟨hi4, hb4, hc4, hle4⟩ := readBytes_ok_fields heq4
              have hlen4 : s5.buf.length = s4.buf.length := by rw [hb4]
              split at hok
              next e heq => exact Except.noConfusion hok
              next socks s6 heq5 =>
                obtain ⟨sokk, -⟩ := parseSockets_inv _ s5 0 ii [] (by omega)
                obtain ⟨ha5, hb5, hc5⟩ := sokk socks s6 heq5
                have hlen5 : s6.buf.length = s5.buf.length := by rw [hc5]
                obtain ⟨ihok, -⟩ := ih s6 (ii + 1) _ (by omega)
                obtain ⟨ha6, hb6, hc6⟩ := ihok r s' hok
                exact ⟨by omega, by omega, by rw [hc6, hc5, hb4, hb3, hb2, hb1]⟩
    · intro e herr
      unfold parseInstLoop at herr
      split at herr
      next e2 heq =>
        obtain ⟨hi, hc, hlt⟩ := readByte_error_fields heq
        dsimp only at hi hc hlt
        cases herr
        exact ⟨by omega, by rw [hc]; exact instCtx_ne ii⟩
      next key s2 heq1 =>
        obtain ⟨hi1, hb1, hc1, hle1⟩ := readByte_ok_fields heq1
        dsimp only at hi1 hb1 hc1 hle1
        have hlen1 : s2.buf.length = s.buf.length := by rw [hb1]
        split at herr
        next e2 heq =>
          obtain ⟨hi, hc, hlt⟩ := readByte_error_fields heq
          cases herr
          exact ⟨by omega, by rw [hc, hc1]; exact instCtx_ne ii⟩
        next ty s3 heq2 =>
          obtain ⟨hi2, hb2, hc2, hle2⟩ := readByte_ok_fields heq2
          have hlen2 : s3.buf.length = s2.buf.length := by rw [hb2]
          split at herr
          next e2 heq =>
            obtain ⟨hi, hc, hlt⟩ := readBytes_error_fields heq
            cases herr
            exact ⟨by omega, by rw [hc, hc2, hc1]; exact instCtx_ne ii⟩
          next sizeInfo s4 heq3 =>
            obtain ⟨hi3, hb3, hc3, hle3⟩ := readBytes_ok_fields heq3
            have hlen3 : s4.buf.length = s3.buf.length := by rw [hb3]
            dsimp only at herr
            split at herr
            next e2 heq =>
              obtain ⟨hi, hc, hlt⟩ := readBytes_error_fields heq
              cases herr
              exact ⟨by omega, by rw [hc, hc3, hc2, hc1]; exact instCtx_ne ii⟩
            next nameBytes s5 heq4 =>
              obtain ⟨hi4, hb4, hc4, hle4⟩ := readBytes_ok_fields heq4
              have hlen4 : s5.buf.length = s4.buf.length := by rw [hb4]
              split at herr
              next e2 heq5 =>
                obtain ⟨-, sokerr⟩ := parseSockets_inv _ s5 0 ii [] (by omega)
                obtain ⟨ha5, hb5⟩ := sokerr e2 heq5
                cases herr
                exact ⟨by omega, hb5⟩
              next socks s6 heq5 =>
                obtain ⟨sokk, -⟩ := parseSockets_inv _ s5 0 ii [] (by omega)
                obtain ⟨ha5, hb5, hc5⟩ := sokk socks s6 heq5
                have hlen5 : s6.buf.length = s5.buf.length := by rw [hc5]
                obtain ⟨-, iherr⟩ := ih s6 (ii + 1) _ (by omega)
                obtain ⟨ha6, hb6⟩ := iherr e herr
                exact ⟨by omega, hb6⟩

theorem parseInstances_inv (s : ParserState) (h : s.i ≤ s.buf.length) :
    (∀ r s', parseInstances s = .ok (r, s') →
      s.i ≤ s'.i ∧ s'.i ≤ s.buf.length ∧ s'.buf = s.buf) ∧
    (∀ e, parseInstances s = .error e →
      e.Index ≤ s.buf.length ∧ e.Context ≠ "") := by
  constructor
  · intro r s' hok
    unfold parseInstances at hok
    split at hok
    next e heq => exact Except.noConfusion hok
    next instanceCount s1 heq1 =>
      obtain ⟨hi1, hb1, hc1, hle1⟩ := readByte_ok_fields heq1
      dsimp only at hi1 hb1 hc1 hle1
      have hlen1 : s1.buf.length = s.buf.length := by rw [hb1]
      obtain ⟨ihok, -⟩ := parseInstLoop_inv instanceCount s1 0 [] (by omega)
      obtain ⟨ha, hb, hc⟩ := ihok r s' hok
      exact ⟨by omega, by omega, by rw [hc, hb1]⟩
  · intro e herr
    unfold parseInstances at herr
    split at herr
    next e2 heq =>
      obtain ⟨hi, hc, hlt⟩ := readByte_error_fields heq
      dsimp only at hi hc hlt
      cases herr
      exact ⟨by omega, by rw [hc]; exact ctxInstCount_ne⟩
    next instanceCount s1 heq1 =>
      obtain ⟨hi1, hb1, hc1, hle1⟩ := readByte_ok_fields heq1
      dsimp only at hi1 hb1 hc1 hle1
      have hlen1 : s1.buf.length = s.buf.length := by rw [hb1]
      obtain ⟨-, iherr⟩ := parseInstLoop_inv instanceCount s1 0 [] (by omega)
      obtain ⟨ha, hb⟩ := iherr e herr
      exact ⟨by omega, hb⟩

theorem parse_inv (s : ParserState) (h : s.i ≤ s.buf.length) :
    (∀ n s', parse s = .ok (n, s') →
      s.i ≤ s'.i ∧ s'.i ≤ s.buf.length ∧ s'.buf = s.buf) ∧
    (∀ e, parse s = .error e →
      e.Index ≤ s.buf.length ∧ e.Context ≠ "") := by
  constructor
  · intro n s' hok
    unfold parse at hok
    split at hok
    next e heq => exact Except.noConfusion hok
    next ver s1 heq1 =>
      obtain ⟨hok1, -⟩ := parseHeader_inv s h
      obtain ⟨ha1, hb1, hc1⟩ := hok1 ver s1 heq1
      have hlen1 : s1.buf.length = s.buf.length := by rw [hc1]
      split at hok
      next e heq => exact Except.noConfusion hok
      next roots s2 heq2 =>
        obtain ⟨hok2, -⟩ := parseRoots_inv s1 (by omega)
        obtain ⟨ha2, hb2, hc2⟩ := hok2 roots s2 heq2
        have hlen2 : s2.buf.length = s1.buf.length := by rw [hc2]
        split at hok
        next e heq => exact Except.noConfusion hok
        next tables s3 heq3 =>
          obtain ⟨hok3, -⟩ := parseNodesAndTypes_inv s2 (by omega)
          obtain ⟨ha3, hb3, hc3⟩ := hok3 tables s3 heq3
          have hlen3 : s3.buf.length = s2.buf.length := by rw [hc3]
          split at hok
          next e heq => exact Except.noConfusion hok
          next insts s4 heq4 =>
            obtain ⟨hok4, -⟩ := parseInstances_inv s3 (by omega)
            obtain ⟨ha4, hb4, hc4⟩ := hok4 insts s4 heq4
            cases hok
            exact ⟨by omega, by omega, by rw [hc4, hc3, hc2, hc1]⟩
  · intro e herr
    unfold parse at herr
    split at herr
    next e2 heq =>
      obtain ⟨-, herr1⟩ := parseHeader_inv s h
      cases herr
      exact herr1 e heq
    next ver s1 heq1 =>
      obtain ⟨hok1, -⟩ := parseHeader_inv s h
      obtain ⟨ha1, hb1, hc1⟩ := hok1 ver s1 heq1
      have hlen1 : s1.buf.length = s.buf.length := by rw [hc1]
      split at herr
      next e2 heq =>
        obtain ⟨-, herr2⟩ := parseRoots_inv s1 (by omega)
        obtain ⟨ha, hb⟩ := herr2 e2 heq
        cases herr
        exact ⟨by omega, hb⟩
      next roots s2 heq2 =>
        obtain ⟨hok2, -⟩ := parseRoots_inv s1 (by omega)
        obtain ⟨ha2, hb2, hc2⟩ := hok2 roots s2 heq2
        have hlen2 : s2.buf.length = s1.buf.length := by rw [hc2]
        split at herr
        next e2 heq =>
          obtain ⟨-, herr3⟩ := parseNodesAndTypes_inv s2 (by omega)
          obtain ⟨ha, hb⟩ := herr3 e2 heq
          cases herr
          exact ⟨by omega, hb⟩
        next tables s3 heq3 =>
          obtain ⟨hok3, -⟩ := parseNodesAndTypes_inv s2 (by omega)
          obtain ⟨ha3, hb3, hc3⟩ := hok3 tables s3 heq3
          have hlen3 : s3.buf.length = s2.buf.length := by rw [hc3]
          split at herr
          next e2 heq =>
            obtain ⟨-, herr4⟩ := parseInstances_inv s3 (by omega)
            obtain ⟨ha, hb⟩ := herr4 e2 heq
            cases herr
            exact ⟨by omega, hb⟩
          next insts s4 heq4 => exact Except.noConfusion herr

/-! Header-phase computations used by several claims. -/

theorem parseHeader_badmagic (buf : List Nat) (hlen : 11 ≤ buf.length)
    (hm : buf.take 11 ≠ MAGIC_NUMBER) :
    parseHeader ⟨buf, 0, ""⟩ =
      .error ⟨ctxMagic, PMessage.invalidMagic (buf.take 11), 11⟩ := by
  unfold parseHeader
  simp only [readBytes_pos buf 0 ctxMagic 11 (by omega), List.drop_zero]
  rw [if_pos hm]
  rfl

theorem magic_length : MAGIC_NUMBER.length = 11 := by decide

theorem parseHeader_version (v : Nat) (rest : List Nat) :
    parseHeader ⟨MAGIC_NUMBER ++ v :: rest, 0, ""⟩ =
      if v > LATEST_VERSION then
        .error ⟨ctxVersion, PMessage.invalidVersion v, 12⟩
      else
        .ok (v, ⟨MAGIC_NUMBER ++ v :: rest, 12, ctxVersion⟩) := by
  have hL : (MAGIC_NUMBER ++ v :: rest).length = 12 + rest.length := by
    rw [List.length_append, magic_length]
    simp
    omega
  have htake : ((MAGIC_NUMBER ++ v :: rest).drop 0).take 11 = MAGIC_NUMBER := by
    rw [List.drop_zero]
    exact List.take_left' magic_length
  have hv : (MAGIC_NUMBER ++ v :: rest).getD 11 0 = v := by
    rw [List.getD_eq_getElem?_getD, List.getElem?_append_right (by rw [magic_length])]
    rw [magic_length]
    norm_num
  unfold parseHeader
  simp only [readBytes_pos (MAGIC_NUMBER ++ v :: rest) 0 ctxMagic 11 (by omega), htake]
  rw [if_neg (fun hne => hne rfl)]
  simp only [readByte_pos (MAGIC_NUMBER ++ v :: rest) 11 ctxVersion (by omega), hv]
  split
  · rfl
  · rfl

/-! The claims. -/

/-- Claim C1, counterexample: the claim states that a bad-magic failure is
reported at byte offset 0, but on the concrete 12-byte all-zero buffer the
decoder reports the invalid-magic error at offset 11 (the cursor position
after the 11 magic bytes were read), not 0. -/
theorem claim1_counterexample :
    (ParseFromSlice (List.replicate 12 0)).2 =
      some { Context := ctxMagic,
             Message := PMessage.invalidMagic (List.replicate 11 0), Index := 11 } ∧
    (11 : Nat) ≠ 0 := by
  constructor
  · decide
  · decide

/-- Claim C1 as amended: for every buffer of at least 12 bytes whose first
11 bytes differ from the ASCII literal `kronarknode`, decode fails with an
invalid-magic condition carrying the 11 bytes actually read, in the
magic-parsing phase, and the reported byte offset is 11 (the cursor stands
just past the magic window), not 0. -/
theorem claim1_magic_error_offset (buf : List Nat) (hlen : 12 ≤ buf.length)
    (hm : buf.take 11 ≠ MAGIC_NUMBER) :
    ParseFromSlice buf =
      (none, some { Context := ctxMagic,
                    Message := PMessage.invalidMagic (buf.take 11), Index := 11 }) := by
  unfold ParseFromSlice parse
  simp only [parseHeader_badmagic buf (by omega) hm]

/-- Claim C1 witness: the amended claim at the all-zero 12-byte buffer. -/
theorem claim1_witness :
    ParseFromSlice (List.replicate 12 0) =
      (none, some { Context := ctxMagic,
                    Message := PMessage.invalidMagic ((List.replicate 12 0).take 11),
                    Index := 11 }) :=
  claim1_magic_error_offset (List.replicate 12 0) (by decide) (by decide)

set_option maxRecDepth 100000 in
/-- Claim C2: the bit-unpacking arithmetic is exact. For every 4-byte
instance window the decoded fields are X = (b0 <<< 2 ||| b1 >>> 6) - 500,
Y = ((b1 &&& 0x3F) <<< 4 ||| b2 >>> 4) - 500, name length =
(b2 &&& 0x0F) <<< 2 ||| b3 >>> 6, socket count = b3 &&& 0x3F; and every
raw 10-bit field value v (instance or root window) yields coordinate
v - 500. -/
theorem claim2_bit_unpacking :
    (∀ b0 b1 b2 b3 : Nat, b0 < 256 → b1 < 256 → b2 < 256 → b3 < 256 →
      unpackSizeInfo b0 b1 b2 b3 =
        { X := ((((b0 <<< 2) ||| (b1 >>> 6)) : Nat) : Int) - 500,
          Y := (((((b1 &&& 63) <<< 4) ||| (b2 >>> 4)) : Nat) : Int) - 500,
          nameLen := ((b2 &&& 15) <<< 2) ||| (b3 >>> 6),
          sockCount := b3 &&& 63 }) ∧
    (∀ v : Nat, v < 1024 →
      (unpackSizeInfo (v >>> 2) ((v &&& 3) <<< 6) 0 0).X = (v : Int) - 500 ∧
      (unpackRootPos (v >>> 2) ((v &&& 3) <<< 6) 0 0 0).1.X = (v : Int) - 500) := by
  constructor
  · have m6 : ∀ b : Nat, b < 256 → (b >>> 6) &&& 3 = b >>> 6 := by decide
    have m4 : ∀ b : Nat, b < 256 → (b >>> 4) &&& 15 = b >>> 4 := by decide
    intro b0 b1 b2 b3 h0 h1 h2 h3
    unfold unpackSizeInfo
    rw [m6 b1 h1, m4 b2 h2, m6 b3 h3]
  · decide

/-- Claim C2 witness: the window formulas at the all-ones window, and the
two bias endpoints, raw 0 giving -500 and raw 1023 giving 523. -/
theorem claim2_witness :
    (unpackSizeInfo 255 255 255 255 =
      { X := ((((255 <<< 2) ||| (255 >>> 6)) : Nat) : Int) - 500,
        Y := (((((255 &&& 63) <<< 4) ||| (255 >>> 4)) : Nat) : Int) - 500,
        nameLen := ((255 &&& 15) <<< 2) ||| (255 >>> 6),
        sockCount := 255 &&& 63 }) ∧
    (unpackSizeInfo (0 >>> 2) ((0 &&& 3) <<< 6) 0 0).X = ((0 : Nat) : Int) - 500 ∧
    (unpackSizeInfo (1023 >>> 2) ((1023 &&& 3) <<< 6) 0 0).X = ((1023 : Nat) : Int) - 500 ∧
    (unpackRootPos (1023 >>> 2) ((1023 &&& 3) <<< 6) 0 0 0).1.X = ((1023 : Nat) : Int) - 500 :=
  ⟨claim2_bit_unpacking.1 255 255 255 255 (by decide) (by decide) (by decide) (by decide),
   (claim2_bit_unpacking.2 0 (by decide)).1,
   (claim2_bit_unpacking.2 1023 (by decide)).1,
   (claim2_bit_unpacking.2 1023 (by decide)).2⟩

/-- Claim C6: decoding the minimal buffer (magic, version 1, five zero
root bytes, four zero count bytes) succeeds and yields a document with
version 1, both root positions (-500, -500), and empty connections,
tables and instances. -/
theorem claim6_minimal_document :
    ParseFromSlice (MAGIC_NUMBER ++ [1, 0, 0, 0, 0, 0, 0, 0, 0, 0]) =
      (some { Version := 1, InputRootPosition := { X := -500, Y := -500 },
              OutputRoot := { Position := { X := -500, Y := -500 }, Connections := [] },
              Nodes := [], Types := [], Instances := [] }, none) := by
  decide

/-- Claim C9: after a valid magic the decoder reads one version byte;
every value greater than 1 (the latest supported version) fails the whole
decode with an invalid-version condition, and every value at most 1
(including 0) is accepted, the header phase succeeding with that version
and the cursor moved past the header. -/
theorem claim9_version_check (v : Nat) (rest : List Nat) (hv : v < 256) :
    (LATEST_VERSION < v →
      ParseFromSlice (MAGIC_NUMBER ++ v :: rest) =
        (none, some { Context := ctxVersion,
                      Message := PMessage.invalidVersion v, Index := 12 })) ∧
    (v ≤ LATEST_VERSION →
      parseHeader ⟨MAGIC_NUMBER ++ v :: rest, 0, ""⟩ =
        .ok (v, ⟨MAGIC_NUMBER ++ v :: rest, 12, ctxVersion⟩)) := by
  constructor
  · intro h
    unfold ParseFromSlice parse
    simp only [parseHeader_version v rest, if_pos h]
  · intro h
    rw [parseHeader_version v rest, if_neg (by omega)]

/-- Claim C9 witness: version byte 2 fails the whole decode, and version
byte 1 is accepted by the header phase. -/
theorem claim9_witness :
    ParseFromSlice (MAGIC_NUMBER ++ 2 :: []) =
      (none, some { Context := ctxVersion,
                    Message := PMessage.invalidVersion 2, Index := 12 }) ∧
    parseHeader ⟨MAGIC_NUMBER ++ 1 :: [], 0, ""⟩ =
      .ok (1, ⟨MAGIC_NUMBER ++ 1 :: [], 12, ctxVersion⟩) :=
  ⟨(claim9_version_check 2 [] (by decide)).1 (by decide),
   (claim9_version_check 1 [] (by decide)).2 (by decide)⟩

/-- Claim C3: every socket's flags byte is decoded with bit 0 as the
switch value, bit 1 as connected, bit 2 as repetitive and bits 3 to 5 as
the kind (0 outgoing-named through 5 incoming-text, the `SocketType`
constants of this file); and when the kind is not outgoing-named and the
connected bit is set, exactly two further bytes are read after the
flags, value-type and port-slot bytes (the connected instance index and
then the connected socket index), the socket gets that connection
reference, and no inline value is read. -/
theorem claim3_socket_flags_connection :
    (∀ (s : ParserState) (sk : Socket) (s' : ParserState),
      parseSocket s = .ok (sk, s') →
      sk.type = ((s.buf.getD s.i 0 >>> 3) &&& 7) ∧
      sk.Connected = ((s.buf.getD s.i 0 &&& 2) != 0) ∧
      sk.Repetitive = ((s.buf.getD s.i 0 &&& 4) != 0) ∧
      (sk.type = IncomingSwitch → sk.Connected = false →
        sk.Value = if (s.buf.getD s.i 0 &&& 1) != 0 then "true" else "false")) ∧
    (∀ (buf : List Nat) (i : Nat) (c : String),
      i + 5 ≤ buf.length →
      ((buf.getD i 0 >>> 3) &&& 7) ≠ OutgoingNamed →
      (buf.getD i 0 &&& 2) ≠ 0 →
      parseSocket ⟨buf, i, c⟩ =
        .ok ({ type := (buf.getD i 0 >>> 3) &&& 7, ValueType := buf.getD (i + 1) 0,
               PortSlot := buf.getD (i + 2) 0,
               Repetitive := (buf.getD i 0 &&& 4) != 0,
               Connected := (buf.getD i 0 &&& 2) != 0,
               ConnectedSocket := buf.getD (i + 4) 0,
               ConnectedNode := buf.getD (i + 3) 0, Value := "" },
             ⟨buf, i + 5, c⟩)) := by
  constructor
  · intro s sk s' hok
    exact parseSocket_flags hok
  · intro buf i c h5 hk hc
    exact parseSocket_conn buf i c h5 hk (bne_iff_ne.mpr hc)

/-- Claim C3 witness: an incoming-select socket (flags byte 26) with the
connected bit set, followed by value type 7, port slot 9 and the
connection bytes 3 and 1, yields connection reference (node 3, socket 1)
and no inline value, consuming exactly five bytes. -/
theorem claim3_witness :
    parseSocket ⟨[26, 7, 9, 3, 1], 0, ""⟩ =
      .ok ({ type := IncomingSelect, ValueType := 7, PortSlot := 9,
             Repetitive := false, Connected := true,
             ConnectedSocket := 1, ConnectedNode := 3, Value := "" },
           ⟨[26, 7, 9, 3, 1], 5, ""⟩) := by
  have h := claim3_socket_flags_connection.2 [26, 7, 9, 3, 1] 0 ("")
    (by decide) (by decide) (by decide)
  rw [h]
  rfl

/-- Claim C4: a socket whose flags byte encodes kind incoming-switch with
the connected bit clear gets its inline value synthesized from bit 0 of
the flags byte, the text true when the bit is set and false otherwise,
and no bytes beyond the flags, value-type and port-slot bytes are
consumed (no length or value bytes are read): the cursor ends exactly
three bytes after where the socket started. -/
theorem claim4_switch_value (buf : List Nat) (i : Nat) (c : String)
    (hb : i + 3 ≤ buf.length)
    (hk : ((buf.getD i 0 >>> 3) &&& 7) = IncomingSwitch)
    (hc : (buf.getD i 0 &&& 2) = 0) :
    parseSocket ⟨buf, i, c⟩ =
      .ok ({ type := IncomingSwitch, ValueType := buf.getD (i + 1) 0,
             PortSlot := buf.getD (i + 2) 0,
             Repetitive := (buf.getD i 0 &&& 4) != 0,
             Connected := false, ConnectedSocket := 0, ConnectedNode := 0,
             Value := if (buf.getD i 0 &&& 1) != 0 then "true" else "false" },
           ⟨buf, i + 3, c⟩) :=
  parseSocket_switch buf i c hb hk hc

/-- Claim C4 witness: flags byte 33 (kind incoming-switch, connected 0,
switch value 1) yields inline value true and consumes only three bytes. -/
theorem claim4_witness :
    parseSocket ⟨[33, 0, 0], 0, ""⟩ =
      .ok ({ type := IncomingSwitch, ValueType := 0, PortSlot := 0,
             Repetitive := false, Connected := false,
             ConnectedSocket := 0, ConnectedNode := 0, Value := "true" },
           ⟨[33, 0, 0], 3, ""⟩) := by
  have h := claim4_switch_value [33, 0, 0] 0 ("") (by decide) (by decide) (by decide)
  rw [h]
  rfl

/-- Claim C5: a socket whose flags byte encodes kind outgoing-named reads
only the flags, value-type and port-slot bytes and nothing further (the
cursor ends exactly three bytes later), and never yields a connection
reference or an inline value, regardless of the other flag bits. -/
theorem claim5_outgoing_named (buf : List Nat) (i : Nat) (c : String)
    (hb : i + 3 ≤ buf.length)
    (hk : ((buf.getD i 0 >>> 3) &&& 7) = OutgoingNamed) :
    parseSocket ⟨buf, i, c⟩ =
      .ok ({ type := OutgoingNamed, ValueType := buf.getD (i + 1) 0,
             PortSlot := buf.getD (i + 2) 0,
             Repetitive := (buf.getD i 0 &&& 4) != 0,
             Connected := (buf.getD i 0 &&& 2) != 0,
             ConnectedSocket := 0, ConnectedNode := 0, Value := "" },
           ⟨buf, i + 3, c⟩) :=
  parseSocket_outgoing buf i c hb hk

/-- Claim C5 witness: flags byte 7 (outgoing-named kind with the switch,
connected and repetitive bits all set) still reads only three bytes and
yields no connection reference and no inline value. -/
theorem claim5_witness :
    parseSocket ⟨[7, 5, 6], 0, ""⟩ =
      .ok ({ type := OutgoingNamed, ValueType := 5, PortSlot := 6,
             Repetitive := true, Connected := true,
             ConnectedSocket := 0, ConnectedNode := 0, Value := "" },
           ⟨[7, 5, 6], 3, ""⟩) := by
  have h := claim5_outgoing_named [7, 5, 6] 0 ("") (by decide) (by decide)
  rw [h]
  rfl

/-- Claim C10: for a successfully decoded outgoing-named socket, the
Connected and Repetitive fields are still populated from bits 1 and 2 of
the flags byte (so an outgoing-named socket can carry Connected true),
while ConnectedNode and ConnectedSocket stay 0 and Value stays the empty
string, the cursor having moved exactly three bytes. -/
theorem claim10_outgoing_flags_populated (s : ParserState) (sk : Socket)
    (s' : ParserState)
    (hk : ((s.buf.getD s.i 0 >>> 3) &&& 7) = OutgoingNamed)
    (hok : parseSocket s = .ok (sk, s')) :
    sk.Connected = ((s.buf.getD s.i 0 &&& 2) != 0) ∧
    sk.Repetitive = ((s.buf.getD s.i 0 &&& 4) != 0) ∧
    sk.ConnectedNode = 0 ∧ sk.ConnectedSocket = 0 ∧ sk.Value = "" ∧
    s'.i = s.i + 3 := by
  unfold parseSocket at hok
  split at hok
  next e heq => exact Except.noConfusion hok
  next flags s1 heq1 =>
    obtain ⟨hf, hs1, hle1⟩ := readByte_ok_inv heq1
    subst hf
    split at hok
    next e heq => exact Except.noConfusion hok
    next vt s2 heq2 =>
      obtain ⟨hv2, hs2, hle2⟩ := readByte_ok_inv heq2
      split at hok
      next e heq => exact Except.noConfusion hok
      next ps s3 heq3 =>
        obtain ⟨hv3, hs3, hle3⟩ := readByte_ok_inv heq3
        split at hok
        next hcond => exact absurd hk hcond
        next hcond =>
          cases hok
          refine ⟨rfl, rfl, rfl, rfl, rfl, ?_⟩
          subst hs1
          subst hs2
          subst hs3
          dsimp only

/-- Claim C10 witness: flags byte 2 (outgoing-named kind, connected bit
set) produces a socket with Connected true, zero connection reference
fields and empty value, the cursor at offset 3. -/
theorem claim10_witness :
    ({ type := OutgoingNamed, ValueType := 0, PortSlot := 0,
       Repetitive := false, Connected := true,
       ConnectedSocket := 0, ConnectedNode := 0, Value := "" } : Socket).Connected
        = ((([2, 0, 0] : List Nat).getD 0 0 &&& 2) != 0) ∧
    ({ type := OutgoingNamed, ValueType := 0, PortSlot := 0,
       Repetitive := false, Connected := true,
       ConnectedSocket := 0, ConnectedNode := 0, Value := "" } : Socket).Repetitive
        = ((([2, 0, 0] : List Nat).getD 0 0 &&& 4) != 0) ∧
    ({ type := OutgoingNamed, ValueType := 0, PortSlot := 0,
       Repetitive := false, Connected := true,
       ConnectedSocket := 0, ConnectedNode := 0, Value := "" } : Socket).ConnectedNode = 0 ∧
    ({ type := OutgoingNamed, ValueType := 0, PortSlot := 0,
       Repetitive := false, Connected := true,
       ConnectedSocket := 0, ConnectedNode := 0, Value := "" } : Socket).ConnectedSocket = 0 ∧
    ({ type := OutgoingNamed, ValueType := 0, PortSlot := 0,
       Repetitive := false, Connected := true,
       ConnectedSocket := 0, ConnectedNode := 0, Value := "" } : Socket).Value = "" ∧
    (⟨[2, 0, 0], 3, ""⟩ : ParserState).i = (⟨[2, 0, 0], 0, ""⟩ : ParserState).i + 3 :=
  claim10_outgoing_flags_populated ⟨[2, 0, 0], 0, ""⟩ _ ⟨[2, 0, 0], 3, ""⟩
    (by decide) (by rfl)

/-- Claim C7: whenever decode returns an error, the error carries the
three facts of the error contract, a nonempty phase label, a message and
the byte offset (the Context, Message and Index fields of ParseError),
and no partial document is returned: the node component of the result is
nil. -/
theorem claim7_error_triple_no_partial (buf : List Nat) (e : ParseError)
    (h : (ParseFromSlice buf).2 = some e) :
    (ParseFromSlice buf).1 = none ∧ e.Context ≠ "" := by
  unfold ParseFromSlice at h ⊢
  cases hp : parse ⟨buf, 0, ""⟩ with
  | ok p =>
    obtain ⟨n, s'⟩ := p
    rw [hp] at h
    exact Option.noConfusion h
  | error e2 =>
    rw [hp] at h
    replace h : e2 = e := Option.some.inj h
    subst h
    obtain ⟨-, herr⟩ := parse_inv ⟨buf, 0, ""⟩ (Nat.zero_le _)
    exact ⟨rfl, (herr e2 hp).2⟩

/-- Claim C7 witness: on the empty buffer decode fails, the node
component is nil and the phase label is nonempty. -/
theorem claim7_witness :
    (ParseFromSlice []).1 = none ∧
    ({ Context := ctxMagic, Message := PMessage.readError, Index := 0 } :
      ParseError).Context ≠ "" :=
  claim7_error_triple_no_partial []
    { Context := ctxMagic, Message := PMessage.readError, Index := 0 } (by decide)

/-- Claim C8: the cursor invariants. The read primitive advances the
offset by exactly the requested amount, never past the buffer end, and on
a shortfall fails without advancing, the error referencing the exact
offset at which the shortfall was detected; consequently a whole decode
run from offset 0 keeps the cursor within the buffer, and every decode
error references an offset within the buffer. -/
theorem claim8_cursor_bounds :
    (∀ (s : ParserState) (n : Nat), s.i ≤ s.buf.length →
      (∀ bs s', readBytes s n = .ok (bs, s') →
        s.i ≤ s'.i ∧ s'.i ≤ s'.buf.length ∧ s'.buf = s.buf ∧ s'.i = s.i + n) ∧
      (∀ e, readBytes s n = .error e →
        e.Index = s.i ∧ s.buf.length < s.i + n)) ∧
    (∀ (buf : List Nat) (n : Node) (s' : ParserState),
      parse ⟨buf, 0, ""⟩ = .ok (n, s') → s'.i ≤ buf.length) ∧
    (∀ (buf : List Nat) (e : ParseError),
      (ParseFromSlice buf).2 = some e → e.Index ≤ buf.length) := by
  refine ⟨?_, ?_, ?_⟩
  · intro s n h
    constructor
    · intro bs s' hok
      obtain ⟨hi, hb, hc, hle⟩ := readBytes_ok_fields hok
      refine ⟨by omega, ?_, hb, hi⟩
      rw [hb]
      omega
    · intro e herr
      obtain ⟨hi, hc, hlt⟩ := readBytes_error_fields herr
      exact ⟨hi, hlt⟩
  · intro buf n s' hok
    obtain ⟨pok, -⟩ := parse_inv ⟨buf, 0, ""⟩ (Nat.zero_le _)
    obtain ⟨-, hb, -⟩ := pok n s' hok
    exact hb
  · intro buf e h
    unfold ParseFromSlice at h
    cases hp : parse ⟨buf, 0, ""⟩ with
    | ok p =>
      obtain ⟨n, s'⟩ := p
      rw [hp] at h
      exact Option.noConfusion h
    | error e2 =>
      rw [hp] at h
      replace h : e2 = e := Option.some.inj h
      subst h
      obtain ⟨-, herr⟩ := parse_inv ⟨buf, 0, ""⟩ (Nat.zero_le _)
      exact (herr e2 hp).1

/-- Claim C8 witness: reading 1 byte of a 1-byte buffer advances the
cursor to the end; reading 2 bytes fails at offset 0 without advancing;
the minimal document's decode ends with the cursor within the buffer; and
the empty buffer's decode error references offset 0, within the buffer. -/
theorem claim8_witness :
    ((0 : Nat) ≤ 1 ∧ (1 : Nat) ≤ 1 ∧ ([5] : List Nat) = [5] ∧ (1 : Nat) = 0 + 1) ∧
    (((⟨"", PMessage.readError, 0⟩ : ParseError).Index = 0 ∧ (1 : Nat) < 0 + 2) ∧
      (⟨ctxMagic, PMessage.readError, 0⟩ : ParseError).Index ≤ ([] : List Nat).length) := by
  refine ⟨?_, ?_, ?_⟩
  · have h := (claim8_cursor_bounds.1 ⟨[5], 0, ""⟩ 1 (by decide)).1 [5] ⟨[5], 1, ""⟩ (by rfl)
    exact h
  · have h := (claim8_cursor_bounds.1 ⟨[5], 0, ""⟩ 2 (by decide)).2
      ⟨"", PMessage.readError, 0⟩ (by rfl)
    exact h
  · have h := claim8_cursor_bounds.2.2 [] ⟨ctxMagic, PMessage.readError, 0⟩ (by decide)
    exact h

end Knode
